import Mathlib

/-!
Shallow embedding of the `iced` table widget
(`src/native/src/widget/table.rs` and its submodules `background.rs`,
`column.rs`, `length.rs`, `row.rs`, `selected.rs`, plus
`src/style/src/table.rs`).

Conventions of the embedding:
* `f32` values (heights, fixed widths, padding) are carried verbatim by the
  widget — no arithmetic or comparison is ever performed on them — so they
  are represented by the opaque carrier `F32 := Int`.
* Host `Element`s are opaque: the cell payload is a type parameter `E`.
  Messages are a type parameter `M`, background colors a type parameter `B`.
* The style-sheet lookups performed by `RowBackground::new`
  (`theme.active(&table.style).background`, `theme.header_background(&table.style)`,
  `theme.striped_background(&table.style)`, `theme.selected_background(&table.style)`)
  are modelled by a `Theme` record holding the four resolved backgrounds for
  the table's (fixed, opaque) style value; the `style` field of `Table` is
  therefore not carried separately.
* Fallible Rust code (`Result`, and the `unwrap` of the selection iterator
  inside `RowBackground::next`) is modelled with `Except` / `Option`, where
  `none` marks the panic path of the `unwrap`.
-/

namespace Iced

/-- Carrier for `f32` values; the widget only stores and forwards them. -/
abbrev F32 := Int

/-- `iced_core::alignment::Horizontal`. -/
inductive Horizontal
  | Left
  | Center
  | Right
deriving DecidableEq, Repr

/-- `iced_core::alignment::Vertical`. -/
inductive Vertical
  | Top
  | Center
  | Bottom
deriving DecidableEq, Repr

/-- `iced_core::Padding`. -/
structure Padding where
  top : F32
  right : F32
  bottom : F32
  left : F32
deriving DecidableEq, Repr

/-- `Padding::ZERO`. -/
def Padding.ZERO : Padding := ⟨0, 0, 0, 0⟩

/-- `iced_core::Length`. -/
inductive CoreLength
  | Fill
  | FillPortion (factor : Nat)
  | Fixed (w : F32)
  | Shrink
deriving DecidableEq, Repr

/-- `iced_core::Size` (only `Size::ZERO` is used by the table widget). -/
structure Size where
  width : F32
  height : F32
deriving DecidableEq, Repr

/-- `Size::ZERO`. -/
def Size.ZERO : Size := ⟨0, 0⟩

/-- `iced_native::layout::Node`: a size plus child nodes. -/
structure Node where
  size : Size
  children : List Node

/-- `Node::new(size)`: a node with the given size and no children. -/
def Node.new (size : Size) : Node := ⟨size, []⟩

namespace Table

/-- `table::Length` (`length.rs`): a column width, without `Shrink`. -/
inductive Length
  | Fill
  | FillPortion (portion : Nat)
  | Fixed (w : F32)
deriving DecidableEq, Repr

/-- `From<Length> for iced_core::Length` (`length.rs`). -/
def Length.toCore : Length → CoreLength
  | .Fill => .Fill
  | .FillPortion p => .FillPortion p
  | .Fixed w => .Fixed w

/-- `matches!(w, Length::Fixed(_))`, as used in `Widget::width`. -/
def Length.is_fixed : Length → Bool
  | .Fixed _ => true
  | _ => false

/-- `table::Column` (`column.rs`). -/
structure Column where
  width : Length
  alignment : Horizontal × Vertical
  cell_padding : Padding
deriving DecidableEq, Repr

/-- A table cell: either the empty placeholder `Element::from(Empty {})`
or a caller-supplied host element. -/
inductive Cell (E : Type)
  | empty
  | elem (e : E)
deriving DecidableEq, Repr

/- The `Empty` placeholder widget (`row.rs`, `mod empty`). -/
namespace Empty

/-- `Empty`'s `Widget::width`. -/
def width : CoreLength := .Shrink

/-- `Empty`'s `Widget::height`. -/
def height : CoreLength := .Shrink

/-- `Empty`'s `Widget::layout`: `Node::new(Size::ZERO)`. -/
def layout : Node := Node.new Size.ZERO

/-- `Empty`'s `Widget::draw` has an empty body: the renderer state is
returned unchanged. -/
def draw {R : Type} (renderer : R) : R := renderer

end Empty

/-- `table::Row` (`row.rs`): raw cells plus a fixed height. -/
structure Row (E : Type) where
  cells : List (Cell E)
  height : F32

/-- `Row::new(cells, height)`: each `None` becomes the empty placeholder
`Element::from(Empty {})`, each `Some` keeps its element. -/
def Row.new {E : Type} (cells : List (Option E)) (height : F32) : Row E :=
  { cells := cells.map (fun c => (c.map Cell.elem).getD Cell.empty)
    height := height }

/-- A cell wrapped by `Table::row` into a `Container` with the column's
width, the row's fixed height, the column's padding, and the (possibly
overridden) alignment. -/
structure Container (E : Type) where
  content : Cell E
  width : CoreLength
  height : CoreLength
  padding : Padding
  align_x : Horizontal
  align_y : Vertical
deriving DecidableEq, Repr

/-- A row after wrapping by `Table::row` (stored in `Table.rows` /
`Table.header`). -/
structure WrappedRow (E : Type) where
  cells : List (Container E)
  height : F32
deriving DecidableEq, Repr

/-- `table::selected::Selected` (`selected.rs`). -/
structure Selected (M : Type) where
  selected_rows : List Bool
  on_selected : List Bool → M

end Table

/-- `Table` (`table.rs`): columns, wrapped rows, optional wrapped header,
fill factor, padding, striping flag, optional selection. -/
structure Table (E M : Type) where
  columns : List Table.Column
  rows : List (Table.WrappedRow E)
  header : Option (Table.WrappedRow E)
  fill_factor : Nat
  padding : Padding
  is_striped : Bool
  selected : Option (Table.Selected M)

namespace Table

variable {E M : Type}

/-- `Table::row` (`table.rs`, lines 213-240): zip the cells with the
columns and wrap each cell in a sized, padded, aligned container. -/
def row (cells : List (Cell E)) (height : F32) (columns : List Column)
    (overriding_alignments : Option (Horizontal × Vertical)) : WrappedRow E :=
  { cells := (cells.zip columns).map (fun ec =>
      { content := ec.1
        width := ec.2.width.toCore
        height := CoreLength.Fixed height
        padding := ec.2.cell_padding
        align_x := (overriding_alignments.getD ec.2.alignment).1
        align_y := (overriding_alignments.getD ec.2.alignment).2 })
    height := height }

/-- The row-wrapping loop of `Table::try_new`: wrap each row, failing with
`columns.len()` at the first row whose cell count differs from it
(`collect::<Result<Vec<_>, _>>()` short-circuits). -/
def wrapRows (columns : List Column) : List (Row E) → Except Nat (List (WrappedRow E))
  | [] => Except.ok []
  | r :: rs =>
    if r.cells.length ≠ columns.length then Except.error columns.length
    else (wrapRows columns rs).map (row r.cells r.height columns none :: ·)

/-- `Table::try_new` (`table.rs`, lines 72-100). -/
def try_new (columns : List Column) (rows : List (Row E)) :
    Except Nat (Table E M) :=
  (wrapRows columns rows).map (fun wrapped =>
    { columns := columns
      rows := wrapped
      header := none
      fill_factor := 1
      padding := Padding.ZERO
      is_striped := false
      selected := none })

/-- `Table::fill_factor` setter (`table.rs`, lines 110-113). -/
def set_fill_factor (t : Table E M) (fill_factor : Nat) : Table E M :=
  { t with fill_factor := fill_factor }

/-- `Table::padding` setter. -/
def set_padding (t : Table E M) (padding : Padding) : Table E M :=
  { t with padding := padding }

/-- `Table::striped` setter. -/
def striped (t : Table E M) (is_striped : Bool) : Table E M :=
  { t with is_striped := is_striped }

/-- `Table::try_selected` (`table.rs`, lines 138-152). -/
def try_selected (t : Table E M) (selected_rows : List Bool)
    (on_selected : List Bool → M) : Except Nat (Table E M) :=
  if selected_rows.length ≠ t.rows.length then Except.error t.rows.length
  else Except.ok { t with selected := some ⟨selected_rows, on_selected⟩ }

/-- `Table::try_header` (`table.rs`, lines 163-196). -/
def try_header (t : Table E M) (header : Row E)
    (overriding_alignments : Option (Horizontal × Vertical)) :
    Except Nat (Table E M) :=
  if header.cells.length ≠ t.columns.length then Except.error t.columns.length
  else Except.ok
    { t with header := some (row header.cells header.height t.columns overriding_alignments) }

/-- `Table::len` (`table.rs`, lines 242-244): `rows.len() + header.is_some()`. -/
def len (t : Table E M) : Nat :=
  t.rows.length + (if t.header.isSome then 1 else 0)

/-- `IntoIterator for &Table` (`table.rs` / `iter.rs`): the header first
when present, then the content rows in storage order. Every widget-trait
fan-out (`draw`, `diff`, `operate`, `on_event`, `mouse_interaction`,
`layout`) iterates exactly this sequence. -/
def intoIter (t : Table E M) : List (WrappedRow E) :=
  match t.header with
  | some h => h :: t.rows
  | none => t.rows

/-- `Widget::width` (`table.rs`, lines 291-302). -/
def width (t : Table E M) : CoreLength :=
  if t.columns.any (fun c => !c.width.is_fixed) then
    CoreLength.FillPortion t.fill_factor
  else CoreLength.Shrink

/-- `Widget::height` (`table.rs`, lines 304-306). -/
def height (_t : Table E M) : CoreLength := CoreLength.Shrink

/-- The child count handed to `flex::resolve_iter` by `Widget::layout`
(`table.rs`, line 319): `self.len() + self.header.is_some() as usize`. -/
def layoutChildCount (t : Table E M) : Nat :=
  t.len + (if t.header.isSome then 1 else 0)

end Table

/-- The four backgrounds `RowBackground::new` reads from the style sheet
for the table's style: `active(style).background`, `header_background(style)`,
`striped_background(style)`, `selected_background(style)`. -/
structure Theme (B : Type) where
  active_background : B
  header_background : B
  striped_background : B
  selected_background : B
deriving DecidableEq, Repr

/-- `RowType` (`background.rs`): the cursor state, carrying the striping
parity (`None` when striping is disabled). -/
inductive RowType
  | Header (striped : Option Bool)
  | Content (striped : Option Bool)
deriving DecidableEq, Repr

/-- `RowType::new(has_header, is_striped)`. -/
def RowType.new (has_header : Bool) (is_striped : Bool) : RowType :=
  let striped := if is_striped then some false else none
  if has_header then .Header striped else .Content striped

/-- `RowType::next` (`background.rs`, lines 23-32): returns the current
state and the advanced state (`Header` falls to `Content` with the same
parity; `Content` toggles the parity). -/
def RowType.next : RowType → RowType × RowType
  | .Header striped => (.Header striped, .Content striped)
  | .Content striped => (.Content striped, .Content (striped.map (fun s => !s)))

/-- `RowBackground` (`background.rs`): the four colors, the optional
selection iterator (its unconsumed remainder), and the cursor state. -/
structure RowBackground (B : Type) where
  normal : B
  header : B
  striped : B
  selected : B
  selected_rows_iter : Option (List Bool)
  current_type : RowType
deriving DecidableEq, Repr

/-- `RowBackground::new(table, theme)` (`background.rs`, lines 47-69). -/
def RowBackground.new {E M B : Type} (t : Table E M) (theme : Theme B) :
    RowBackground B :=
  { normal := theme.active_background
    header := theme.header_background
    striped := theme.striped_background
    selected := theme.selected_background
    selected_rows_iter := t.selected.map Table.Selected.selected_rows
    current_type := RowType.new t.header.isSome t.is_striped }

/-- `RowBackground::next` (`background.rs`, lines 71-86). `none` is the
panic of `iter.next().unwrap()` on an exhausted selection iterator;
otherwise the produced background and the advanced cursor are returned. -/
def RowBackground.next {B : Type} (rb : RowBackground B) :
    Option (B × RowBackground B) :=
  match rb.current_type.next with
  | (current, nextType) =>
    let rb := { rb with current_type := nextType }
    match current with
    | .Header _ => some (rb.header, rb)
    | .Content striped =>
      match rb.selected_rows_iter with
      | some iter =>
        match iter with
        | [] => none
        | b :: rest =>
          let rb := { rb with selected_rows_iter := some rest }
          if b then some (rb.selected, rb)
          else some ((match striped with
            | none => rb.normal
            | some false => rb.normal
            | some true => rb.striped), rb)
      | none =>
        some ((match striped with
          | none => rb.normal
          | some false => rb.normal
          | some true => rb.striped), rb)

/-- `n` successive calls to `RowBackground::next`, as performed by
`Widget::draw` (one call per iterated child); `none` if any call panics. -/
def RowBackground.run {B : Type} (rb : RowBackground B) : Nat → Option (List B)
  | 0 => some []
  | n + 1 =>
    match rb.next with
    | none => none
    | some (b, rb') => (rb'.run n).map (b :: ·)

/-- The sequence of background quads painted by `Widget::draw`
(`table.rs`, lines 323-352): one `RowBackground::next` per child of
`into_iter()`, i.e. `len()` calls when the state tree and layout tree have
the matching child count. -/
def Table.drawBackgrounds {E M B : Type} (t : Table E M) (theme : Theme B) :
    Option (List B) :=
  (RowBackground.new t theme).run t.len

/-- `event::Status` (host toolkit). -/
inductive Status
  | Ignored
  | Captured
deriving DecidableEq, Repr

/-- `widget::table::State` (`table.rs`, lines 466-469); the modifier set is
opaque. -/
structure State (K : Type) where
  keyboard_modifiers : K

/-- The host `Shell`, modelled as the list of messages published into it. -/
structure Shell (M : Type) where
  messages : List M

/-- `update` (`table.rs`, lines 489-498): the stub selection hook. Its body
is just `event::Status::Ignored`; the shell and state are threaded through
explicitly to expose that they are untouched. -/
def update {Ev La Pt K M : Type} (_event : Ev) (_layout : La)
    (_cursor_position : Pt) (shell : Shell M)
    (_on_selected : Option (List Bool → M)) (state : State K) :
    Status × Shell M × State K :=
  (Status.Ignored, shell, state)

/-!
Spec-side description of the background sequence (following the words of
spec.md, section 4.3 and section 8), to be compared with the sequence the
embedded code produces.
-/

/-- Modelled from the spec's words: the background of content row `i` is
the selected color when a selection vector is attached and that row's bit
is true; otherwise the striped color when striping is enabled and the
row's alternating parity (starting `false` at row 0) is odd; otherwise the
normal color. -/
def specRowColor {B : Type} (theme : Theme B) (is_striped : Bool)
    (selBit : Option Bool) (i : Nat) : B :=
  if selBit = some true then theme.selected_background
  else if is_striped ∧ i % 2 = 1 then theme.striped_background
  else theme.active_background

/-- Modelled from the spec's words: the whole expected sequence — the
header color first when a header is present, then `specRowColor` for each
content row in storage order. -/
def specBackgrounds {E M B : Type} (t : Table E M) (theme : Theme B) : List B :=
  (if t.header.isSome then [theme.header_background] else []) ++
  (List.range t.rows.length).map (fun i =>
    specRowColor theme t.is_striped
      ((t.selected.map Table.Selected.selected_rows).map (fun l => l.getD i false)) i)

/-- The parity component of the cursor after `k` content advances:
`none` when striping is disabled, else `some (k odd)`. -/
def stripeState (is_striped : Bool) (k : Nat) : Option Bool :=
  if is_striped then some (decide (k % 2 = 1)) else none

lemma stripeState_zero (s : Bool) :
    stripeState s 0 = if s then some false else none := by
  cases s <;> rfl

lemma stripeState_succ (s : Bool) (k : Nat) :
    (stripeState s k).map (fun b => !b) = stripeState s (k + 1) := by
  cases s
  · rfl
  · simp only [stripeState, if_pos, Option.map_some]
    rcases Nat.mod_two_eq_zero_or_one k with h | h <;>
      simp [Nat.add_mod, h]

lemma run_succ_of_next {B : Type} {rb rb' : RowBackground B} {b : B}
    (h : rb.next = some (b, rb')) (n : Nat) :
    rb.run (n + 1) = (rb'.run n).map (b :: ·) := by
  rw [RowBackground.run, h]

/-- Running the cursor from a `Content` state over `n` rows yields exactly
the spec's per-row colors, offset by the `k` content advances already
performed. -/
lemma run_content {B : Type} (nrm hdr str sel : B) (is_striped : Bool) :
    ∀ (n k : Nat) (selIter : Option (List Bool)),
    (∀ l, selIter = some l → l.length = n) →
    RowBackground.run
        ⟨nrm, hdr, str, sel, selIter, RowType.Content (stripeState is_striped k)⟩ n
      = some ((List.range n).map (fun i =>
          specRowColor ⟨nrm, hdr, str, sel⟩ is_striped
            (selIter.map (fun l => l.getD i false)) (k + i))) := by
  intro n
  induction n with
  | zero => intro k selIter _; rfl
  | succ n ih =>
    intro k selIter hlen
    cases selIter with
    | none =>
      have hnext :
          RowBackground.next
              (⟨nrm, hdr, str, sel, none, RowType.Content (stripeState is_striped k)⟩ :
                RowBackground B)
            = some (specRowColor ⟨nrm, hdr, str, sel⟩ is_striped none k,
                ⟨nrm, hdr, str, sel, none,
                  RowType.Content (stripeState is_striped (k + 1))⟩) := by
        rw [← stripeState_succ]
        cases hs : stripeState is_striped k with
        | none =>
          simp only [stripeState] at hs
          rcases is_striped with _ | _
          · simp [RowBackground.next, RowType.next, stripeState, specRowColor]
          · simp at hs
        | some b =>
          have hstriped : is_striped = true := by
            by_contra h
            simp [stripeState, h] at hs
          subst hstriped
          simp only [stripeState, if_pos] at hs
          cases hb : decide (k % 2 = 1) with
          | false =>
            rw [hb] at hs
            cases hs
            have hk : ¬ (k % 2 = 1) := of_decide_eq_false hb
            simp [RowBackground.next, RowType.next, specRowColor, hk]
          | true =>
            rw [hb] at hs
            cases hs
            have hk : k % 2 = 1 := of_decide_eq_true hb
            simp [RowBackground.next, RowType.next, specRowColor, hk]
      rw [run_succ_of_next hnext]
      rw [ih (k + 1) none (by intro l hl; cases hl)]
      simp only [Option.map_some', List.range_succ_eq_map, List.map_cons,
        List.map_map, Option.map_none, Option.some.injEq, List.cons.injEq]
      constructor
      · simp
      · apply List.map_congr_left
        intro i _
        have hk : k + 1 + i = k + (i + 1) := by omega
        simp only [Function.comp_apply, Nat.succ_eq_add_one, Option.map_none', hk]
    | some l =>
      have hl : l.length = n + 1 := hlen l rfl
      cases l with
      | nil => simp at hl
      | cons b rest =>
        have hrest : rest.length = n := by simpa using hl
        have hnext :
            RowBackground.next
                (⟨nrm, hdr, str, sel, some (b :: rest),
                  RowType.Content (stripeState is_striped k)⟩ : RowBackground B)
              = some (specRowColor ⟨nrm, hdr, str, sel⟩ is_striped (some b) k,
                  ⟨nrm, hdr, str, sel, some rest,
                    RowType.Content (stripeState is_striped (k + 1))⟩) := by
          rw [← stripeState_succ]
          cases b with
          | true =>
            simp [RowBackground.next, RowType.next, specRowColor]
          | false =>
            cases hs : stripeState is_striped k with
            | none =>
              have hstriped : is_striped = false := by
                by_contra h
                simp [stripeState, h] at hs
              subst hstriped
              simp [RowBackground.next, RowType.next, stripeState, specRowColor]
            | some p =>
              have hstriped : is_striped = true := by
                by_contra h
                simp [stripeState, h] at hs
              subst hstriped
              simp only [stripeState, if_pos] at hs
              cases hp : decide (k % 2 = 1) with
              | false =>
                rw [hp] at hs
                cases hs
                have hk : ¬ (k % 2 = 1) := of_decide_eq_false hp
                simp [RowBackground.next, RowType.next, specRowColor, hk]
              | true =>
                rw [hp] at hs
                cases hs
                have hk : k % 2 = 1 := of_decide_eq_true hp
                simp [RowBackground.next, RowType.next, specRowColor, hk]
        rw [run_succ_of_next hnext]
        rw [ih (k + 1) (some rest) (by intro l hl'; cases hl'; exact hrest)]
        simp only [Option.map_some', List.range_succ_eq_map, List.map_cons,
          List.map_map, Option.some.injEq, List.cons.injEq]
        constructor
        · simp
        · apply List.map_congr_left
          intro i _
          have hk : k + 1 + i = k + (i + 1) := by omega
          simp only [Function.comp_apply, Nat.succ_eq_add_one,
            List.getD_cons_succ, hk]

/-- The full paint-pass sequence: starting from `RowBackground::new`, the
`len()` successive calls to `next` produce exactly the spec's sequence,
provided any attached selection vector has one bit per content row. -/
lemma run_new_eq_spec {E M B : Type} (t : Table E M) (theme : Theme B)
    (h : ∀ l, t.selected.map Table.Selected.selected_rows = some l →
      l.length = t.rows.length) :
    (RowBackground.new t theme).run t.len = some (specBackgrounds t theme) := by
  cases ht : t.header with
  | none =>
    have hh : t.header.isSome = false := by rw [ht]; rfl
    have hnew : RowBackground.new t theme
        = ⟨theme.active_background, theme.header_background,
            theme.striped_background, theme.selected_background,
            t.selected.map Table.Selected.selected_rows,
            RowType.Content (stripeState t.is_striped 0)⟩ := by
      simp [RowBackground.new, RowType.new, hh, stripeState_zero]
    have hlen : t.len = t.rows.length := by simp [Table.len, hh]
    rw [hnew, hlen,
      run_content theme.active_background theme.header_background
        theme.striped_background theme.selected_background t.is_striped
        t.rows.length 0 (t.selected.map Table.Selected.selected_rows) h]
    simp [specBackgrounds, hh]
  | some hd =>
    have hh : t.header.isSome = true := by rw [ht]; rfl
    have hnew : RowBackground.new t theme
        = ⟨theme.active_background, theme.header_background,
            theme.striped_background, theme.selected_background,
            t.selected.map Table.Selected.selected_rows,
            RowType.Header (stripeState t.is_striped 0)⟩ := by
      simp [RowBackground.new, RowType.new, hh, stripeState_zero]
    have hlen : t.len = t.rows.length + 1 := by simp [Table.len, hh]
    have hnext :
        RowBackground.next
            (⟨theme.active_background, theme.header_background,
              theme.striped_background, theme.selected_background,
              t.selected.map Table.Selected.selected_rows,
              RowType.Header (stripeState t.is_striped 0)⟩ : RowBackground B)
          = some (theme.header_background,
              ⟨theme.active_background, theme.header_background,
                theme.striped_background, theme.selected_background,
                t.selected.map Table.Selected.selected_rows,
                RowType.Content (stripeState t.is_striped 0)⟩) := rfl
    rw [hnew, hlen, run_succ_of_next hnext,
      run_content theme.active_background theme.header_background
        theme.striped_background theme.selected_background t.is_striped
        t.rows.length 0 (t.selected.map Table.Selected.selected_rows) h]
    simp [specBackgrounds, hh]

/-- A prefix of a panic-free run is panic-free: `draw` may iterate fewer
children than `len()` (the zip stops at the shortest of the three lists)
without ever reaching the `unwrap`. -/
lemma run_isSome_of_le {B : Type} :
    ∀ (n : Nat) (rb : RowBackground B) (m : Nat), m ≤ n →
      (rb.run n).isSome → (rb.run m).isSome := by
  intro n
  induction n with
  | zero =>
    intro rb m hm _
    have h0 : m = 0 := Nat.le_zero.mp hm
    subst h0
    rfl
  | succ n ih =>
    intro rb m hm hs
    cases m with
    | zero => rfl
    | succ m =>
      cases hnext : rb.next with
      | none => rw [RowBackground.run, hnext] at hs; simp at hs
      | some p =>
        obtain ⟨b, rb'⟩ := p
        cases hrun : rb'.run n with
        | none => rw [run_succ_of_next hnext, hrun] at hs; simp at hs
        | some l =>
          rw [run_succ_of_next hnext]
          have hm' : (rb'.run m).isSome :=
            ih rb' m (Nat.le_of_succ_le_succ hm) (by rw [hrun]; rfl)
          cases hrm : rb'.run m with
          | none => rw [hrm] at hm'; simp at hm'
          | some l' => simp [hrm]

/-- Claim C1: for every table whose attached selection vector (if any) has
one bit per content row, the sequence of backgrounds produced by the
`len()` successive calls to `RowBackground::next` during a paint pass is:
the header color first when a header is present, then, for each content
row in storage order, the selected color when its selection bit is true,
otherwise the striped color when striping is enabled and the row's
alternating parity (starting false) is odd, otherwise the normal color. -/
theorem rowBackground_sequence_matches_spec {E M B : Type}
    (t : Table E M) (theme : Theme B)
    (h : ∀ l, t.selected.map Table.Selected.selected_rows = some l →
      l.length = t.rows.length) :
    (RowBackground.new t theme).run t.len = some (specBackgrounds t theme) :=
  run_new_eq_spec t theme h

/-- Claim C9: when striping is enabled, a content-row advance whose
selection bit is true returns the selected color, yet still toggles the
striped parity and consumes the selection bit — the next row continues the
alternation exactly as if the selected row had shown its stripe color. -/
theorem selected_row_still_toggles_parity {B : Type}
    (rb : RowBackground B) (p : Bool) (rest : List Bool)
    (h1 : rb.current_type = RowType.Content (some p))
    (h2 : rb.selected_rows_iter = some (true :: rest)) :
    rb.next = some (rb.selected,
      { rb with current_type := RowType.Content (some (!p)),
                selected_rows_iter := some rest }) := by
  obtain ⟨nrm, hdr, str, sel, it, ct⟩ := rb
  simp only at h1 h2
  subst h1
  subst h2
  rfl

/-- Witness for C9 at a concrete cursor. -/
theorem selected_row_still_toggles_parity_witness :
    RowBackground.next
        (⟨0, 1, 2, 3, some [true, false], RowType.Content (some false)⟩ :
          RowBackground Nat)
      = some (3, ⟨0, 1, 2, 3, some [false], RowType.Content (some true)⟩) :=
  selected_row_still_toggles_parity
    ⟨0, 1, 2, 3, some [true, false], RowType.Content (some false)⟩
    false [false] rfl rfl

/-! Concrete instances used to exercise the theorems. -/

/-- A wrapped content row with no cells (cells are irrelevant to the
background machinery). -/
def exRowW : Table.WrappedRow Unit := ⟨[], 20⟩

/-- A theme with four distinct backgrounds:
normal 0, header 1, striped 2, selected 3. -/
def exTheme : Theme Nat := ⟨0, 1, 2, 3⟩

/-- A three-row table, no header, no striping, no selection. -/
def exTableNoSel : Table Unit Nat :=
  { columns := []
    rows := [exRowW, exRowW, exRowW]
    header := none
    fill_factor := 1
    padding := Padding.ZERO
    is_striped := false
    selected := none }

/-- `exTableNoSel` with the selection vector `[true, false, true]`. -/
def exTableSel : Table Unit Nat :=
  { exTableNoSel with selected := some ⟨[true, false, true], fun _ => 0⟩ }

/-- A four-row striped table with a header and no selection. -/
def exTableHdrStriped : Table Unit Nat :=
  { columns := []
    rows := [exRowW, exRowW, exRowW, exRowW]
    header := some (⟨[], 25⟩ : Table.WrappedRow Unit)
    fill_factor := 1
    padding := Padding.ZERO
    is_striped := true
    selected := none }

/-- Witness for C1: with selection `[true, false, true]`, no striping, no
header, the sequence is selected, normal, selected; with a header,
striping on and no selection it is header, normal, striped, normal,
striped. -/
theorem rowBackground_sequence_matches_spec_witness :
    (RowBackground.new exTableSel exTheme).run exTableSel.len
        = some [3, 0, 3] ∧
    (RowBackground.new exTableHdrStriped exTheme).run exTableHdrStriped.len
        = some [1, 0, 2, 0, 2] := by
  constructor
  · have h := rowBackground_sequence_matches_spec exTableSel exTheme
      (by intro l hl; cases hl; rfl)
    rw [h]; rfl
  · have h := rowBackground_sequence_matches_spec exTableHdrStriped exTheme
      (by intro l hl; exact Option.noConfusion hl)
    rw [h]; rfl

/-- Claim C8: for every table whose attached selection vector (if any) has
one bit per content row — the invariant `try_selected` establishes — the
paint pass never reaches the `unwrap` past the end of the selection slice:
all `len()` backgrounds are produced, and so is any shorter prefix the
draw loop's zip could stop at. -/
theorem draw_never_panics {E M B : Type} (t : Table E M) (theme : Theme B)
    (h : ∀ l, t.selected.map Table.Selected.selected_rows = some l →
      l.length = t.rows.length) :
    (t.drawBackgrounds theme).isSome ∧
    ∀ n, n ≤ t.len → ((RowBackground.new t theme).run n).isSome := by
  have hrun := run_new_eq_spec t theme h
  constructor
  · rw [Table.drawBackgrounds, hrun]; rfl
  · intro n hn
    exact run_isSome_of_le t.len (RowBackground.new t theme) n hn
      (by rw [hrun]; rfl)

/-- Witness for C8 on the selection-carrying table. -/
theorem draw_never_panics_witness :
    (exTableSel.drawBackgrounds exTheme).isSome ∧
    ((RowBackground.new exTableSel exTheme).run 2).isSome := by
  have h := draw_never_panics exTableSel exTheme (by intro l hl; cases hl; rfl)
  exact ⟨h.1, h.2 2 (by decide)⟩

lemma wrapRows_ok {E : Type} (columns : List Table.Column) :
    ∀ rows : List (Table.Row E),
      (∀ r ∈ rows, r.cells.length = columns.length) →
      ∃ ws, Table.wrapRows columns rows = Except.ok ws ∧
        ws.length = rows.length := by
  intro rows
  induction rows with
  | nil => intro _; exact ⟨[], rfl, rfl⟩
  | cons r rs ih =>
    intro hall
    have hr : r.cells.length = columns.length := hall r (by simp)
    obtain ⟨ws, hws, hlen⟩ := ih (fun r' hr' => hall r' (by simp [hr']))
    refine ⟨Table.row r.cells r.height columns none :: ws, ?_, by simp [hlen]⟩
    rw [Table.wrapRows, if_neg (by simp [hr]), hws]
    rfl

lemma wrapRows_err {E : Type} (columns : List Table.Column) :
    ∀ rows : List (Table.Row E),
      (∃ r ∈ rows, r.cells.length ≠ columns.length) →
      Table.wrapRows columns rows = Except.error columns.length := by
  intro rows
  induction rows with
  | nil => intro ⟨r, hr, _⟩; simp at hr
  | cons r rs ih =>
    intro ⟨r', hr', hbad⟩
    by_cases hr : r.cells.length = columns.length
    · have hrs : ∃ r'' ∈ rs, r''.cells.length ≠ columns.length := by
        rcases List.mem_cons.mp hr' with h | h
        · exact absurd (h ▸ hr) hbad
        · exact ⟨r', h, hbad⟩
      rw [Table.wrapRows, if_neg (by simp [hr]), ih hrs]
      rfl
    · rw [Table.wrapRows, if_pos hr]

/-- Claim C2: `try_new` succeeds, preserving the row count, exactly when
every row has one cell per column; any arity mismatch yields
`Err(columns.len())`. -/
theorem try_new_arity {E M : Type} (columns : List Table.Column)
    (rows : List (Table.Row E)) :
    ((∀ r ∈ rows, r.cells.length = columns.length) →
      ∃ t : Table E M, Table.try_new columns rows = Except.ok t ∧
        t.rows.length = rows.length) ∧
    ((∃ r ∈ rows, r.cells.length ≠ columns.length) →
      (Table.try_new columns rows : Except Nat (Table E M))
        = Except.error columns.length) := by
  constructor
  · intro hall
    obtain ⟨ws, hws, hlen⟩ := wrapRows_ok columns rows hall
    refine ⟨{ columns := columns, rows := ws, header := none, fill_factor := 1,
              padding := Padding.ZERO, is_striped := false,
              selected := none }, ?_, hlen⟩
    rw [Table.try_new, hws]
    rfl
  · intro hbad
    rw [Table.try_new, wrapRows_err columns rows hbad]
    rfl

/-- A fixed-width column. -/
def exColFixed : Table.Column :=
  ⟨Table.Length.Fixed 100, (Horizontal.Left, Vertical.Top), Padding.ZERO⟩

/-- A fill column. -/
def exColFill : Table.Column :=
  ⟨Table.Length.Fill, (Horizontal.Right, Vertical.Bottom), Padding.ZERO⟩

/-- A one-cell raw row. -/
def exRow1 : Table.Row Unit := ⟨[Table.Cell.empty], 20⟩

/-- A cell-less raw row. -/
def exRow0 : Table.Row Unit := ⟨[], 20⟩

/-- Witness for C2: one matching row succeeds with row count 1; a row with
no cells against one column fails with error value 1. -/
theorem try_new_arity_witness :
    (∃ t : Table Unit Nat,
      Table.try_new [exColFixed] [exRow1] = Except.ok t ∧
        t.rows.length = 1) ∧
    (Table.try_new [exColFixed] [exRow0] : Except Nat (Table Unit Nat))
      = Except.error 1 := by
  constructor
  · exact (try_new_arity [exColFixed] [exRow1]).1
      (by intro r hr; rw [List.mem_singleton.mp hr]; rfl)
  · exact (try_new_arity [exColFixed] [exRow0]).2
      ⟨exRow0, by simp, by decide⟩

/-- Claim C3: the width reported to the host is `FillPortion(fill_factor)`
when at least one column's width is not `Fixed`, and `Shrink` when every
column is `Fixed` — whatever fill factor was set — and the reported height
is always `Shrink`. -/
theorem width_height_policy {E M : Type} (t : Table E M) (k : Nat) :
    ((∃ c ∈ t.columns, c.width.is_fixed = false) →
      t.width = CoreLength.FillPortion t.fill_factor ∧
      (t.set_fill_factor k).width = CoreLength.FillPortion k) ∧
    ((∀ c ∈ t.columns, c.width.is_fixed = true) →
      t.width = CoreLength.Shrink ∧
      (t.set_fill_factor k).width = CoreLength.Shrink) ∧
    t.height = CoreLength.Shrink := by
  refine ⟨?_, ?_, rfl⟩
  · intro ⟨c, hc, hw⟩
    have hany : t.columns.any (fun c => !c.width.is_fixed) = true :=
      List.any_eq_true.mpr ⟨c, hc, by simp [hw]⟩
    exact ⟨by simp [Table.width, hany],
      by simp [Table.width, Table.set_fill_factor, hany]⟩
  · intro hall
    have hany : t.columns.any (fun c => !c.width.is_fixed) = false := by
      rw [List.any_eq_false]
      intro c hc
      simp [hall c hc]
    exact ⟨by simp [Table.width, hany],
      by simp [Table.width, Table.set_fill_factor, hany]⟩

/-- A table with one fill and one fixed column. -/
def exTableMixed : Table Unit Nat :=
  { exTableNoSel with columns := [exColFixed, exColFill] }

/-- A table whose columns are all fixed-width. -/
def exTableFixed : Table Unit Nat :=
  { exTableNoSel with columns := [exColFixed, exColFixed] }

/-- Witness for C3 on a mixed and an all-fixed column list. -/
theorem width_height_policy_witness :
    (exTableMixed.width = CoreLength.FillPortion 1 ∧
      (exTableMixed.set_fill_factor 7).width = CoreLength.FillPortion 7) ∧
    (exTableFixed.set_fill_factor 7).width = CoreLength.Shrink ∧
    exTableFixed.height = CoreLength.Shrink := by
  refine ⟨(width_height_policy exTableMixed 7).1 ⟨exColFill, by decide, rfl⟩, ?_, ?_⟩
  · exact ((width_height_policy exTableFixed 7).2.1
      (by intro c hc; simp [exTableFixed, exTableNoSel] at hc; rw [hc]; rfl)).2
  · exact (width_height_policy exTableFixed 7).2.2

/-- Claim C5: `try_selected` fails with `Err(rows.len())` exactly when the
slice length differs from the row count, and otherwise attaches the slice
and the callback to the table. -/
theorem try_selected_arity {E M : Type} (t : Table E M) (s : List Bool)
    (cb : List Bool → M) :
    (s.length ≠ t.rows.length →
      t.try_selected s cb = Except.error t.rows.length) ∧
    (s.length = t.rows.length →
      t.try_selected s cb = Except.ok { t with selected := some ⟨s, cb⟩ }) := by
  constructor
  · intro h
    rw [Table.try_selected, if_pos h]
  · intro h
    rw [Table.try_selected, if_neg (by simp [h])]

/-- Witness for C5: attaching `[true, false, true]` to the three-row table
succeeds and stores slice and callback; an empty slice fails with 3. -/
theorem try_selected_arity_witness :
    exTableNoSel.try_selected [true, false, true] (fun _ => 0)
        = Except.ok exTableSel ∧
    exTableNoSel.try_selected [] (fun _ => 0) = Except.error 3 :=
  ⟨(try_selected_arity exTableNoSel [true, false, true] (fun _ => 0)).2 rfl,
    (try_selected_arity exTableNoSel [] (fun _ => 0)).1 (by decide)⟩

/-- Claim C7: the `update` hook is a stub — for every event, layout,
cursor, shell, callback and state it reports `Ignored`, publishes nothing
to the shell, and leaves the state (hence every selection bit) untouched. -/
theorem update_is_stub {Ev La Pt K M : Type} (event : Ev) (layout : La)
    (cursor_position : Pt) (shell : Shell M)
    (on_selected : Option (List Bool → M)) (state : State K) :
    update event layout cursor_position shell on_selected state
      = (Status.Ignored, shell, state) := rfl

/-- A placeholder container, used only as the default of `List.getD`. -/
def defaultContainer {E : Type} : Table.Container E :=
  ⟨Table.Cell.empty, CoreLength.Shrink, CoreLength.Shrink, Padding.ZERO,
    Horizontal.Left, Vertical.Top⟩

/-- A placeholder column, used only as the default of `List.getD`. -/
def defaultColumn : Table.Column :=
  ⟨Table.Length.Fill, (Horizontal.Left, Vertical.Top), Padding.ZERO⟩

/-- The `i`-th wrapped cell of a row. -/
def cellAt {E : Type} (w : Table.WrappedRow E) (i : Nat) : Table.Container E :=
  w.cells.getD i defaultContainer

/-- The `i`-th column of a column list. -/
def colAt (columns : List Table.Column) (i : Nat) : Table.Column :=
  columns.getD i defaultColumn

/-- What `Table::row` puts at index `i`: the `i`-th cell wrapped with the
`i`-th column's width and padding and with the overriding alignment when
one is given, the column's alignment otherwise. -/
lemma cellAt_row {E : Type} (h : F32) (ov : Option (Horizontal × Vertical)) :
    ∀ (cells : List (Table.Cell E)) (cols : List Table.Column) (i : Nat),
      i < cells.length → i < cols.length →
      cellAt (Table.row cells h cols ov) i =
        { content := cells.getD i Table.Cell.empty
          width := (colAt cols i).width.toCore
          height := CoreLength.Fixed h
          padding := (colAt cols i).cell_padding
          align_x := (ov.getD (colAt cols i).alignment).1
          align_y := (ov.getD (colAt cols i).alignment).2 } := by
  intro cells
  induction cells with
  | nil => intro cols i hi _; simp at hi
  | cons c cs ih =>
    intro cols i hi hic
    cases cols with
    | nil => simp at hic
    | cons col cols =>
      cases i with
      | zero => rfl
      | succ i =>
        have hi' : i < cs.length := by simpa using hi
        have hic' : i < cols.length := by simpa using hic
        exact ih cols i hi' hic'

/-- Claim C6: `try_header` rejects a header whose cell count differs from
the column count with `Err(columns.len())`; otherwise it attaches the
wrapped header, where a `Some` overriding alignment is applied to every
header cell regardless of each column's own alignment while the cell still
takes its column's width and padding (and the row's fixed height), and a
`None` override leaves each column's own alignment in force. -/
theorem try_header_override {E M : Type} (t : Table E M) (hdr : Table.Row E)
    (a : Horizontal × Vertical) :
    (hdr.cells.length ≠ t.columns.length →
      ∀ ov, t.try_header hdr ov = Except.error t.columns.length) ∧
    (hdr.cells.length = t.columns.length →
      (∀ ov, t.try_header hdr ov = Except.ok
        { t with header := some (Table.row hdr.cells hdr.height t.columns ov) }) ∧
      (∀ i, i < t.columns.length →
        (cellAt (Table.row hdr.cells hdr.height t.columns (some a)) i).align_x
            = a.1 ∧
        (cellAt (Table.row hdr.cells hdr.height t.columns (some a)) i).align_y
            = a.2 ∧
        (cellAt (Table.row hdr.cells hdr.height t.columns (some a)) i).width
            = (colAt t.columns i).width.toCore ∧
        (cellAt (Table.row hdr.cells hdr.height t.columns (some a)) i).padding
            = (colAt t.columns i).cell_padding ∧
        (cellAt (Table.row hdr.cells hdr.height t.columns (some a)) i).height
            = CoreLength.Fixed hdr.height ∧
        (cellAt (Table.row hdr.cells hdr.height t.columns none) i).align_x
            = (colAt t.columns i).alignment.1 ∧
        (cellAt (Table.row hdr.cells hdr.height t.columns none) i).align_y
            = (colAt t.columns i).alignment.2)) := by
  constructor
  · intro h ov
    rw [Table.try_header, if_pos h]
  · intro h
    constructor
    · intro ov
      rw [Table.try_header, if_neg (by simp [h])]
    · intro i hi
      have hcells : i < hdr.cells.length := by rw [h]; exact hi
      have h1 := cellAt_row hdr.height (some a) hdr.cells t.columns i hcells hi
      have h2 := cellAt_row hdr.height none hdr.cells t.columns i hcells hi
      rw [h1, h2]
      exact ⟨rfl, rfl, rfl, rfl, rfl, rfl, rfl⟩

/-- A two-cell header row. -/
def exHdr2 : Table.Row Unit := ⟨[Table.Cell.empty, Table.Cell.empty], 25⟩

/-- Witness for C6 on the two-column table: the override is applied to
both header cells while widths and paddings stay per-column, the `None`
case keeps each column alignment, and a one-cell header fails with 2. -/
theorem try_header_override_witness :
    (exTableMixed.try_header exHdr2 (some (Horizontal.Center, Vertical.Center))
        = Except.ok { exTableMixed with header := some (Table.row exHdr2.cells
            exHdr2.height exTableMixed.columns
            (some (Horizontal.Center, Vertical.Center))) }) ∧
    ((cellAt (Table.row exHdr2.cells exHdr2.height exTableMixed.columns
        (some (Horizontal.Center, Vertical.Center))) 1).align_x
          = Horizontal.Center ∧
      (cellAt (Table.row exHdr2.cells exHdr2.height exTableMixed.columns
        (some (Horizontal.Center, Vertical.Center))) 1).width
          = Table.Length.Fill.toCore ∧
      (cellAt (Table.row exHdr2.cells exHdr2.height exTableMixed.columns
        none) 1).align_x = Horizontal.Right) ∧
    (∀ ov, exTableMixed.try_header exRow1 ov = Except.error 2) := by
  have h := try_header_override exTableMixed exHdr2
    (Horizontal.Center, Vertical.Center)
  have hgood := h.2 rfl
  have hcell := hgood.2 1 (by decide)
  refine ⟨hgood.1 (some (Horizontal.Center, Vertical.Center)), ⟨?_, ?_, ?_⟩, ?_⟩
  · exact hcell.1
  · exact hcell.2.2.1
  · exact hcell.2.2.2.2.2.1
  · exact (try_header_override exTableMixed exRow1
      (Horizontal.Center, Vertical.Center)).1 (by decide)

/-- Claim C10: `Row::new` preserves the cell count and each cell's
position, replaces every `None` by the empty placeholder, keeps every
`Some`'s element, and the placeholder's layout is the zero-size childless
node while its draw leaves the renderer untouched. -/
theorem row_new_placeholders {E : Type} (cells : List (Option E))
    (height : F32) :
    (Table.Row.new cells height).cells.length = cells.length ∧
    (Table.Row.new cells height).height = height ∧
    (∀ i e, cells.getD i none = some e →
      (Table.Row.new cells height).cells.getD i Table.Cell.empty
        = Table.Cell.elem e) ∧
    (∀ i, i < cells.length → cells.getD i none = none →
      (Table.Row.new cells height).cells.getD i Table.Cell.empty
        = Table.Cell.empty) ∧
    Table.Empty.layout = Node.new Size.ZERO ∧
    Table.Empty.layout.size = Size.ZERO ∧
    Table.Empty.layout.children = [] ∧
    (∀ (R : Type) (r : R), Table.Empty.draw r = r) := by
  refine ⟨by simp [Table.Row.new], rfl, ?_, ?_, rfl, rfl, rfl, fun _ _ => rfl⟩
  · intro i e he
    have hopt : cells[i]? = some (some e) := by
      cases hq : cells[i]? with
      | none =>
        rw [List.getD_eq_getElem?_getD, hq] at he
        simp at he
      | some o =>
        rw [List.getD_eq_getElem?_getD, hq] at he
        simp at he
        rw [he]
    rw [Table.Row.new]
    simp only [List.getD_eq_getElem?_getD, List.getElem?_map, hopt]
    rfl
  · intro i hi he
    have hq : cells[i]? = some cells[i] := List.getElem?_eq_getElem hi
    rw [List.getD_eq_getElem?_getD, hq] at he
    simp at he
    rw [Table.Row.new]
    simp only [List.getD_eq_getElem?_getD, List.getElem?_map, hq, he]
    rfl

/-- Witness for C10 on `[some 5, none]`. -/
theorem row_new_placeholders_witness :
    (Table.Row.new [some 5, none] 7).cells.length = 2 ∧
    (Table.Row.new [some 5, none] 7).cells.getD 0 Table.Cell.empty
        = Table.Cell.elem 5 ∧
    (Table.Row.new [some 5, none] 7).cells.getD 1 Table.Cell.empty
        = Table.Cell.empty ∧
    Table.Empty.layout = Node.new Size.ZERO := by
  have h := row_new_placeholders [some (5 : Nat), none] 7
  exact ⟨h.1, h.2.2.1 0 5 rfl, h.2.2.2.1 1 (by decide) rfl, h.2.2.2.2.1⟩

/-- `exTableNoSel` with a header attached. -/
def exTableHdr : Table Unit Nat :=
  { exTableNoSel with header := some (⟨[], 25⟩ : Table.WrappedRow Unit) }

/-- Claim C4 (failing input): on a table with a header and three content
rows, every fan-out call iterates the four children of `into_iter()`
(header first, then the rows in storage order) in lockstep — `len()` is
four — yet `Widget::layout` hands `len() + header.is_some()`, i.e. five,
to `flex::resolve_iter` as the child count, double-counting the header. -/
theorem layout_child_count_mismatch :
    exTableHdr.intoIter
        = (⟨[], 25⟩ : Table.WrappedRow Unit) :: exTableHdr.rows ∧
    exTableHdr.intoIter.length = 4 ∧
    exTableHdr.len = 4 ∧
    exTableHdr.layoutChildCount = 5 :=
  ⟨rfl, rfl, rfl, rfl⟩

end Iced
